import Mathlib

/-
Verification of the event-loop integration core in src/common/node_bindings.cc.
The pure parts of the code (argument preparation, path rules, the BindTo body,
the quit condition of UvRunOnce) are embedded as Lean functions; the interaction
of the main thread, the Poll Thread and the destructor is embedded as a small
labelled transition system whose steps mirror UvRunOnce, EmbedThreadRunner and
the destructor line by line.
-/

set_option maxRecDepth 10000

namespace Atom

/-! ### File paths (external collaborator base::FilePath) -/

/-- Modelled from the spec: base::FilePath is an external collaborator; a path
is its list of components, a leading empty component standing for the root. -/
abbrev FsPath := List String

/-- Modelled from the spec: base::FilePath::DirName drops the last component. -/
def dirName (p : FsPath) : FsPath := p.dropLast

/-- Modelled from the spec: base::FilePath::Append adds one component. -/
def appendComp (p : FsPath) (c : String) : FsPath := p ++ [c]

/-- Render a component path as a slash-separated string. -/
def pathToString (p : FsPath) : String := String.intercalate "/" p

/-- Resources directory rule of NodeBindings::Initialize
(src/common/node_bindings.cc lines 97-104): on macOS the browser role uses
exe/../../Resources, the renderer role exe/../../../../../Resources;
elsewhere exe/../resources sits next to the executable. -/
def resourcesPath (isMac isBrowser : Bool) (execPath : FsPath) : FsPath :=
  if isMac then
    if isBrowser then
      appendComp (dirName (dirName execPath)) "Resources"
    else
      appendComp (dirName (dirName (dirName (dirName (dirName execPath))))) "Resources"
  else
    appendComp (dirName execPath) "resources"

/-- Entry-script path rule of NodeBindings::Initialize
(src/common/node_bindings.cc lines 105-108). -/
def entryScriptPath (isMac isBrowser : Bool) (execPath : FsPath) : FsPath :=
  appendComp
    (appendComp (appendComp (resourcesPath isMac isBrowser execPath) "browser") "atom")
    (if isBrowser then "atom.js" else "atom-renderer.js")

/-! ### Runtime argument vector (NodeBindings::Initialize, lines 75-131) -/

/-- args.insert(args.begin() + 1, script) of line 110: the entry-script path
becomes the second element; an empty argument vector is undefined behaviour
(line 95 reads str_argv[0]), modelled as none. -/
def spliceScriptArg (args : List String) (script : String) : Option (List String) :=
  match args with
  | [] => none
  | a0 :: rest => some (a0 :: script :: rest)

/-- Runtime argv on Windows (lines 78-92): every native wide argument is first
converted by UTF16ToUTF8, then the entry script is spliced in at index 1. -/
def runtimeArgvWin {W : Type} (utf16ToUtf8 : W → String) (argv : List W)
    (script : String) : Option (List String) :=
  spliceScriptArg (argv.map utf16ToUtf8) script

/-- Runtime argv on POSIX platforms (line 90): the native arguments are already
UTF-8 and are used as-is, with the entry script spliced in at index 1. -/
def runtimeArgvPosix (argv : List String) (script : String) : Option (List String) :=
  spliceScriptArg argv script

/-! ### Global runtime switches (lines 118-120) -/

/-- The two global switches of the embedded runtime. -/
structure NodeGlobalSwitches where
  g_standalone_mode : Bool
  g_upstream_node_mode : Bool
deriving DecidableEq

/-- Lines 119-120: node::g_standalone_mode = is_browser_;
node::g_upstream_node_mode = false. -/
def globalSwitchesAfterInit (is_browser : Bool) : NodeGlobalSwitches :=
  { g_standalone_mode := is_browser, g_upstream_node_mode := false }

/-! ### UvRunOnce quit condition (lines 184-198) -/

/-- Observable host-loop calls made by one UvRunOnce invocation. -/
inductive PumpEffect
| quitWhenIdle
| semPost
deriving DecidableEq

/-- One UvRunOnce invocation (lines 192-197), given the value r returned by
uv_run(loop, UV_RUN_ONCE | UV_RUN_NOWAIT) and the loop's stop_flag: it calls
QuitWhenIdle exactly when r = 0 or stop_flag is nonzero, then posts the
embed semaphore. -/
def uvRunOnceCalls (r : Int) (stopFlag : Int) : List PumpEffect :=
  (if r = 0 ∨ stopFlag ≠ 0 then [PumpEffect.quitWhenIdle] else []) ++ [PumpEffect.semPost]

/-! ### URL handling (external collaborators GURL and net::UnescapeURLComponent) -/

/-- Value of one hexadecimal digit. -/
def hexDigitVal (c : Char) : Option Nat :=
  if '0' ≤ c ∧ c ≤ '9' then some (c.toNat - '0'.toNat)
  else if 'a' ≤ c ∧ c ≤ 'f' then some (10 + (c.toNat - 'a'.toNat))
  else if 'A' ≤ c ∧ c ≤ 'F' then some (10 + (c.toNat - 'A'.toNat))
  else none

/-- Percent-decode a character list: a %XX escape with two hex digits becomes
the character with that code, everything else is copied. -/
def unescapeChars : List Char → List Char
  | '%' :: h1 :: h2 :: rest =>
    match hexDigitVal h1, hexDigitVal h2 with
    | some a, some b => Char.ofNat (16 * a + b) :: unescapeChars rest
    | _, _ => '%' :: unescapeChars (h1 :: h2 :: rest)
  | c :: rest => c :: unescapeChars rest
  | [] => []

/-- Modelled from the spec: net::UnescapeURLComponent with
SPACES | URL_SPECIAL_CHARS (lines 152-154) — URL-decodes the string, decoding
both spaces and URL-special characters. -/
def unescapeURLComponent (s : String) : String :=
  String.mk (unescapeChars s.toList)

/-- Skip everything up to and including the first scheme separator. -/
def dropSchemeSep : List Char → Option (List Char)
  | ':' :: '/' :: '/' :: rest => some rest
  | _ :: rest => dropSchemeSep rest
  | [] => none

/-- Modelled from the spec: GURL(url).path() (line 151) — the path component of
the document URL: everything from the first slash after the scheme-and-host
part, up to a query or fragment. -/
def urlPath (url : String) : String :=
  let afterScheme := (dropSchemeSep url.toList).getD url.toList
  String.mk ((afterScheme.dropWhile (fun c => c != '/')).takeWhile
    (fun c => !(c == '?' || c == '#')))

/-! ### NodeBindings::BindTo (lines 134-160) -/

/-- The shared node Environment as the core consumes it: a security token and
a process object (both opaque to the core, modelled as numbers). -/
structure Environment where
  securityToken : Nat
  processObject : Nat
deriving DecidableEq

/-- A WebKit frame as BindTo consumes it: its main-world script context (none
when the context is empty) and its document URL. -/
structure WebFrame where
  mainWorldContext : Option Nat
  documentUrl : String
deriving DecidableEq

/-- Observable actions of one BindTo invocation, in order. -/
inductive BindEffect
| setSecurityToken (token : Nat)
| runBootstrapScript
| callBootstrap (processObject : Nat) (scriptPath : String)
deriving DecidableEq

/-- Dereferencing the null global_env (line 51) crashes; modelled as an error. -/
inductive BindError
| nullEnvironmentDeref
deriving DecidableEq

/-- NodeBindings::BindTo (lines 134-160): an empty main-world context returns
immediately (lines 137-139); otherwise global_env is dereferenced for the
security token (line 144), the bootstrap script is compiled and run (lines
147-148), and the resulting function is called with the process object and the
URL-decoded document path (lines 151-159). -/
def bindTo (global_env : Option Environment) (frame : WebFrame) :
    Except BindError (List BindEffect) :=
  match frame.mainWorldContext with
  | none => Except.ok []
  | some _ =>
    match global_env with
    | none => Except.error BindError.nullEnvironmentDeref
    | some env =>
      Except.ok
        [BindEffect.setSecurityToken env.securityToken,
         BindEffect.runBootstrapScript,
         BindEffect.callBootstrap env.processObject
           (unescapeURLComponent (urlPath frame.documentUrl))]

/-! ### The pump / poll / teardown transition system

The interaction of UvRunOnce (lines 184-198), WakeupMainThread (lines 200-204),
EmbedThreadRunner (lines 211-223) and the destructor (lines 60-73) is embedded
as a labelled transition system.  The main thread either performs the initial
pump of RunMessageLoop (line 181) or runs a posted pump task; the Poll Thread
walks the loop of EmbedThreadRunner position by position; the destructor walks
its six statements in order.  The blocking PollEvents call is enabled exactly
when an I/O event has arrived or the dummy async handle has been poked. -/

/-- Position of the main thread: before the initial UvRunOnce of
RunMessageLoop, or inside the running message loop. -/
inductive MainPos
| starting
| looping
deriving DecidableEq

/-- Position of the Poll Thread inside the EmbedThreadRunner loop:
at the embed_closed_ check, blocked in uv_sem_wait, blocked in PollEvents,
about to call WakeupMainThread, or exited. -/
inductive PollPos
| loopCheck
| semWait
| polling
| wakeup
| exited
deriving DecidableEq

/-- Position of the destructor: not yet entered, or about to execute the named
statement of lines 62-72. -/
inductive DtorPos
| notStarted
| toPostSem
| toSendAsync
| toJoin
| toDrain
| toDestroySem
| toStopTimer
| done
deriving DecidableEq

/-- The shared state of the core: thread and destructor positions, the embed
semaphore count, the number of pump tasks queued on the host message loop, the
embed_closed_ flag, whether an I/O event is pending, whether the dummy async
handle was poked, and the teardown results. -/
structure SysState where
  mainPos : MainPos
  pollPos : PollPos
  dtorPos : DtorPos
  sem : Nat
  tasks : Nat
  closed : Bool
  ioReady : Bool
  asyncPending : Bool
  joined : Bool
  semDestroyed : Bool
  timerStopped : Bool
deriving DecidableEq

/-- Observable events: a UvRunOnce invocation (pump), a PollEvents return
(poll), a WakeupMainThread call (wake), and the destructor statements. -/
inductive Ev
| pump
| poll
| wake
| setClosed
| postSem
| sendAsync
| joinThread
| drained
| destroySem
| stopTimer
deriving DecidableEq

/-- Schedulable atomic actions of the three participants. -/
inductive Act
| startPump
| pollCheck
| pollTake
| pollRun
| pollWake
| mainPump
| ioArrive
| dSetClosed
| dPostSem
| dSendAsync
| dJoin
| dDrainPump
| dDrainDone
| dDestroySem
| dStopTimer
deriving DecidableEq

/-- One atomic action: none when the action is not enabled, otherwise the next
state and the events it emits. -/
def step (s : SysState) : Act → Option (SysState × List Ev)
  | Act.startPump =>
    if s.mainPos = MainPos.starting then
      some ({ s with mainPos := MainPos.looping, sem := s.sem + 1 }, [Ev.pump])
    else none
  | Act.pollCheck =>
    if s.pollPos = PollPos.loopCheck then
      if s.closed then some ({ s with pollPos := PollPos.exited }, [])
      else some ({ s with pollPos := PollPos.semWait }, [])
    else none
  | Act.pollTake =>
    if s.pollPos = PollPos.semWait ∧ 0 < s.sem then
      some ({ s with pollPos := PollPos.polling, sem := s.sem - 1 }, [])
    else none
  | Act.pollRun =>
    if s.pollPos = PollPos.polling ∧ (s.ioReady = true ∨ s.asyncPending = true) then
      some ({ s with pollPos := PollPos.wakeup, ioReady := false, asyncPending := false },
        [Ev.poll])
    else none
  | Act.pollWake =>
    if s.pollPos = PollPos.wakeup then
      some ({ s with pollPos := PollPos.loopCheck, tasks := s.tasks + 1 }, [Ev.wake])
    else none
  | Act.mainPump =>
    if s.mainPos = MainPos.looping ∧ s.dtorPos = DtorPos.notStarted ∧ 0 < s.tasks then
      some ({ s with tasks := s.tasks - 1, sem := s.sem + 1 }, [Ev.pump])
    else none
  | Act.ioArrive =>
    if s.ioReady = false then some ({ s with ioReady := true }, []) else none
  | Act.dSetClosed =>
    if s.mainPos = MainPos.looping ∧ s.dtorPos = DtorPos.notStarted then
      some ({ s with closed := true, dtorPos := DtorPos.toPostSem }, [Ev.setClosed])
    else none
  | Act.dPostSem =>
    if s.dtorPos = DtorPos.toPostSem then
      some ({ s with sem := s.sem + 1, dtorPos := DtorPos.toSendAsync }, [Ev.postSem])
    else none
  | Act.dSendAsync =>
    if s.dtorPos = DtorPos.toSendAsync then
      some ({ s with asyncPending := true, dtorPos := DtorPos.toJoin }, [Ev.sendAsync])
    else none
  | Act.dJoin =>
    if s.dtorPos = DtorPos.toJoin ∧ s.pollPos = PollPos.exited then
      some ({ s with joined := true, dtorPos := DtorPos.toDrain }, [Ev.joinThread])
    else none
  | Act.dDrainPump =>
    if s.dtorPos = DtorPos.toDrain ∧ 0 < s.tasks then
      some ({ s with tasks := s.tasks - 1, sem := s.sem + 1 }, [Ev.pump])
    else none
  | Act.dDrainDone =>
    if s.dtorPos = DtorPos.toDrain ∧ s.tasks = 0 then
      some ({ s with dtorPos := DtorPos.toDestroySem }, [Ev.drained])
    else none
  | Act.dDestroySem =>
    if s.dtorPos = DtorPos.toDestroySem then
      some ({ s with semDestroyed := true, dtorPos := DtorPos.toStopTimer }, [Ev.destroySem])
    else none
  | Act.dStopTimer =>
    if s.dtorPos = DtorPos.toStopTimer then
      some ({ s with timerStopped := true, dtorPos := DtorPos.done }, [Ev.stopTimer])
    else none

/-- State right after PrepareMessageLoop: semaphore initialised to 0, Poll
Thread spawned at its loop check, main thread about to run the first pump. -/
def initState : SysState :=
  { mainPos := MainPos.starting, pollPos := PollPos.loopCheck,
    dtorPos := DtorPos.notStarted, sem := 0, tasks := 0, closed := false,
    ioReady := false, asyncPending := false, joined := false,
    semDestroyed := false, timerStopped := false }

/-- Reachability: Steps s tr s2 holds when some interleaving of enabled actions
leads from s to s2 emitting the event trace tr (chronological order). -/
inductive Steps (s : SysState) : List Ev → SysState → Prop
| refl : Steps s [] s
| tail {tr s1 a s2 evs} : Steps s tr s1 → step s1 a = some (s2, evs) →
    Steps s (tr ++ evs) s2

/-- Run a concrete schedule of actions, skipping the disabled ones. -/
def run (s : SysState) : List Act → SysState × List Ev
  | [] => (s, [])
  | a :: rest =>
    match step s a with
    | none => run s rest
    | some (s1, evs) =>
      let r := run s1 rest
      (r.1, evs ++ r.2)

theorem Steps.push {s1 : SysState} {a : Act} {s2 : SysState} {evs : List Ev}
    {tr : List Ev} {s3 : SysState} (h : step s1 a = some (s2, evs))
    (hs : Steps s2 tr s3) : Steps s1 (evs ++ tr) s3 := by
  induction hs with
  | refl => simpa using Steps.tail (Steps.refl) h
  | tail hst hstep ih =>
    rw [← List.append_assoc]
    exact Steps.tail ih hstep

/-- Every concrete schedule yields a reachable trace. -/
theorem steps_run (acts : List Act) (s : SysState) :
    Steps s (run s acts).2 (run s acts).1 := by
  induction acts generalizing s with
  | nil => exact Steps.refl
  | cons a rest ih =>
    show Steps s (run s (a :: rest)).2 (run s (a :: rest)).1
    cases h : step s a with
    | none => simpa [run, h] using ih s
    | some p =>
      obtain ⟨s1, evs⟩ := p
      simpa [run, h] using Steps.push h (ih s1)

/-! ### Trace helpers -/

/-- Is the event a pump_once or poll_events call? -/
def isPumpPoll : Ev → Bool
  | Ev.pump => true
  | Ev.poll => true
  | _ => false

/-- The subtrace of pump and poll events. -/
def pp (tr : List Ev) : List Ev := tr.filter isPumpPoll

/-- Last element of an event list. -/
def lastEv : List Ev → Option Ev
  | [] => none
  | [e] => some e
  | _ :: rest => lastEv rest

/-- Adjacent events all differ. -/
def altB : List Ev → Bool
  | [] => true
  | [_] => true
  | a :: b :: rest => (a != b) && altB (b :: rest)

theorem pp_pump (tr : List Ev) : pp (tr ++ [Ev.pump]) = pp tr ++ [Ev.pump] := by
  show (tr ++ [Ev.pump]).filter isPumpPoll = tr.filter isPumpPoll ++ [Ev.pump]
  rw [List.filter_append]
  rfl

theorem pp_poll (tr : List Ev) : pp (tr ++ [Ev.poll]) = pp tr ++ [Ev.poll] := by
  show (tr ++ [Ev.poll]).filter isPumpPoll = tr.filter isPumpPoll ++ [Ev.poll]
  rw [List.filter_append]
  rfl

theorem pp_skip (tr : List Ev) (e : Ev) (he : isPumpPoll e = false) :
    pp (tr ++ [e]) = pp tr := by
  show (tr ++ [e]).filter isPumpPoll = tr.filter isPumpPoll
  rw [List.filter_append]
  simp [List.filter, he]

theorem pp_nil (tr : List Ev) : pp (tr ++ []) = pp tr := by
  rw [List.append_nil]

theorem lastEv_snoc (l : List Ev) (e : Ev) : lastEv (l ++ [e]) = some e := by
  induction l with
  | nil => rfl
  | cons a rest ih =>
    cases rest with
    | nil => rfl
    | cons b rest2 => exact ih

theorem altB_snoc (l : List Ev) (e : Ev) (h : altB l = true)
    (hne : ∀ x, lastEv l = some x → x ≠ e) : altB (l ++ [e]) = true := by
  induction l with
  | nil => rfl
  | cons a rest ih =>
    cases rest with
    | nil =>
      have hae : a ≠ e := hne a rfl
      show ((a != e) && altB [e]) = true
      simp [hae, altB]
    | cons b rest2 =>
      have h1 : (a != b) = true ∧ altB (b :: rest2) = true := by
        have := h
        simp only [altB, Bool.and_eq_true] at this
        exact this
      have ih2 : altB ((b :: rest2) ++ [e]) = true := ih h1.2 (fun x hx => hne x hx)
      rw [List.cons_append] at ih2
      show ((a != b) && altB (b :: (rest2 ++ [e]))) = true
      simp [h1.1, ih2]

/-! ### Per-step facts -/

theorem step_dtor_back {s1 : SysState} {a : Act} {s2 : SysState} {evs : List Ev}
    (h : step s1 a = some (s2, evs)) (h2 : s2.dtorPos = DtorPos.notStarted) :
    s1.dtorPos = DtorPos.notStarted := by
  cases a <;> simp only [step] at h <;>
    (repeat' split at h) <;>
    simp only [Option.some.injEq, Prod.mk.injEq, reduceCtorEq] at h <;>
    (obtain ⟨hs2, _⟩ := h) <;> subst hs2 <;>
    first
      | exact h2
      | exact DtorPos.noConfusion h2

theorem step_closed_mono {s1 : SysState} {a : Act} {s2 : SysState} {evs : List Ev}
    (h : step s1 a = some (s2, evs)) (hc : s1.closed = true) : s2.closed = true := by
  cases a <;> simp only [step] at h <;>
    (repeat' split at h) <;>
    simp only [Option.some.injEq, Prod.mk.injEq, reduceCtorEq] at h <;>
    (obtain ⟨hs2, _⟩ := h) <;> subst hs2 <;>
    first
      | exact hc
      | rfl

theorem steps_closed_mono {s : SysState} {tr : List Ev} {s2 : SysState}
    (h : Steps s tr s2) (hc : s.closed = true) : s2.closed = true := by
  induction h with
  | refl => exact hc
  | tail hs hstep ih => exact step_closed_mono hstep ih

/-! ### The alternation invariant before teardown -/

/-- Invariant of every reachable configuration in which the destructor has not
begun: the closed flag is clear, the pump/poll subtrace alternates, and the
single circulating token is either with the main thread (before its initial
pump, or as the queued task after a poll cycle), in the semaphore, or with the
Poll Thread mid-cycle. -/
def PreInv (s : SysState) (tr : List Ev) : Prop :=
  s.closed = false ∧ altB (pp tr) = true ∧
  ((s.mainPos = MainPos.starting ∧ pp tr = [] ∧ s.sem = 0 ∧ s.tasks = 0 ∧
      (s.pollPos = PollPos.loopCheck ∨ s.pollPos = PollPos.semWait)) ∨
   (s.mainPos = MainPos.looping ∧ lastEv (pp tr) = some Ev.pump ∧ s.tasks = 0 ∧
      ((s.sem = 1 ∧ (s.pollPos = PollPos.loopCheck ∨ s.pollPos = PollPos.semWait)) ∨
       (s.sem = 0 ∧ s.pollPos = PollPos.polling))) ∨
   (s.mainPos = MainPos.looping ∧ lastEv (pp tr) = some Ev.poll ∧ s.sem = 0 ∧
      ((s.pollPos = PollPos.wakeup ∧ s.tasks = 0) ∨
       ((s.pollPos = PollPos.loopCheck ∨ s.pollPos = PollPos.semWait) ∧ s.tasks = 1))))

theorem preinv_init : PreInv initState [] :=
  ⟨rfl, rfl, Or.inl ⟨rfl, rfl, rfl, rfl, Or.inl rfl⟩⟩

theorem preinv_step {s1 : SysState} {a : Act} {s2 : SysState} {evs : List Ev}
    {tr : List Ev} (hstep : step s1 a = some (s2, evs))
    (hd2 : s2.dtorPos = DtorPos.notStarted)
    (ih : PreInv s1 tr) : PreInv s2 (tr ++ evs) := by
  obtain ⟨hcl, halt, hbr⟩ := ih
  cases a
  case startPump =>
    simp only [step] at hstep
    split at hstep
    · rename_i hm
      simp only [Option.some.injEq, Prod.mk.injEq] at hstep
      obtain ⟨hs2, hevs⟩ := hstep
      subst hs2; subst hevs
      rcases hbr with ⟨_, hpp, hsem, htk, hpol⟩ | ⟨hmp, _, _, _⟩ | ⟨hmp, _, _, _⟩
      · refine ⟨hcl, ?_, Or.inr (Or.inl ⟨rfl, ?_, htk, Or.inl ⟨?_, hpol⟩⟩)⟩
        · rw [pp_pump, hpp]; rfl
        · rw [pp_pump]; exact lastEv_snoc _ _
        · show s1.sem + 1 = 1
          rw [hsem]
      · rw [hm] at hmp; exact MainPos.noConfusion hmp
      · rw [hm] at hmp; exact MainPos.noConfusion hmp
    · exact Option.noConfusion hstep
  case pollCheck =>
    simp only [step] at hstep
    split at hstep
    · rename_i hpl
      split at hstep
      · rename_i hc
        rw [hcl] at hc; exact Bool.noConfusion hc
      · simp only [Option.some.injEq, Prod.mk.injEq] at hstep
        obtain ⟨hs2, hevs⟩ := hstep
        subst hs2; subst hevs
        rw [List.append_nil]
        refine ⟨hcl, halt, ?_⟩
        rcases hbr with ⟨hm, hpp, hsem, htk, _⟩ | ⟨hm, hlast, htk, hrest⟩ |
          ⟨hm, hlast, hsem, hrest⟩
        · exact Or.inl ⟨hm, hpp, hsem, htk, Or.inr rfl⟩
        · rcases hrest with ⟨hsem1, _⟩ | ⟨_, hpolpos⟩
          · exact Or.inr (Or.inl ⟨hm, hlast, htk, Or.inl ⟨hsem1, Or.inr rfl⟩⟩)
          · rw [hpl] at hpolpos; exact PollPos.noConfusion hpolpos
        · rcases hrest with ⟨hpolpos, _⟩ | ⟨_, htk1⟩
          · rw [hpl] at hpolpos; exact PollPos.noConfusion hpolpos
          · exact Or.inr (Or.inr ⟨hm, hlast, hsem, Or.inr ⟨Or.inr rfl, htk1⟩⟩)
    · exact Option.noConfusion hstep
  case pollTake =>
    simp only [step] at hstep
    split at hstep
    · rename_i hg
      obtain ⟨hpl, hsempos⟩ := hg
      simp only [Option.some.injEq, Prod.mk.injEq] at hstep
      obtain ⟨hs2, hevs⟩ := hstep
      subst hs2; subst hevs
      rw [List.append_nil]
      refine ⟨hcl, halt, ?_⟩
      rcases hbr with ⟨_, _, hsem, _, _⟩ | ⟨hm, hlast, htk, hrest⟩ |
        ⟨hm, hlast, hsem, hrest⟩
      · exact absurd hsempos (by omega)
      · rcases hrest with ⟨hsem1, _⟩ | ⟨_, hpolpos⟩
        · refine Or.inr (Or.inl ⟨hm, hlast, htk, Or.inr ⟨?_, rfl⟩⟩)
          show s1.sem - 1 = 0
          omega
        · rw [hpl] at hpolpos; exact PollPos.noConfusion hpolpos
      · exact absurd hsempos (by omega)
    · exact Option.noConfusion hstep
  case pollRun =>
    simp only [step] at hstep
    split at hstep
    · rename_i hg
      obtain ⟨hpl, _⟩ := hg
      simp only [Option.some.injEq, Prod.mk.injEq] at hstep
      obtain ⟨hs2, hevs⟩ := hstep
      subst hs2; subst hevs
      rcases hbr with ⟨_, _, _, _, hpol⟩ | ⟨hm, hlast, htk, hrest⟩ |
        ⟨hm, hlast, hsem, hrest⟩
      · rcases hpol with h | h <;> (rw [hpl] at h; exact PollPos.noConfusion h)
      · rcases hrest with ⟨_, hpol2⟩ | ⟨hsem0, _⟩
        · rcases hpol2 with h | h <;> (rw [hpl] at h; exact PollPos.noConfusion h)
        · refine ⟨hcl, ?_, Or.inr (Or.inr ⟨hm, ?_, hsem0, Or.inl ⟨rfl, htk⟩⟩)⟩
          · rw [pp_poll]
            refine altB_snoc _ _ halt (fun x hx => ?_)
            rw [hlast] at hx
            obtain rfl := Option.some.inj hx
            decide
          · rw [pp_poll]; exact lastEv_snoc _ _
      · rcases hrest with ⟨hpol2, _⟩ | ⟨hpol2, _⟩
        · rw [hpl] at hpol2; exact PollPos.noConfusion hpol2
        · rcases hpol2 with h | h <;> (rw [hpl] at h; exact PollPos.noConfusion h)
    · exact Option.noConfusion hstep
  case pollWake =>
    simp only [step] at hstep
    split at hstep
    · rename_i hpl
      simp only [Option.some.injEq, Prod.mk.injEq] at hstep
      obtain ⟨hs2, hevs⟩ := hstep
      subst hs2; subst hevs
      rcases hbr with ⟨_, _, _, _, hpol⟩ | ⟨hm, hlast, htk, hrest⟩ |
        ⟨hm, hlast, hsem, hrest⟩
      · rcases hpol with h | h <;> (rw [hpl] at h; exact PollPos.noConfusion h)
      · rcases hrest with ⟨_, hpol2⟩ | ⟨_, hpol2⟩
        · rcases hpol2 with h | h <;> (rw [hpl] at h; exact PollPos.noConfusion h)
        · rw [hpl] at hpol2; exact PollPos.noConfusion hpol2
      · rcases hrest with ⟨_, htk0⟩ | ⟨hpol2, _⟩
        · refine ⟨hcl, ?_, Or.inr (Or.inr ⟨hm, ?_, hsem, Or.inr ⟨Or.inl rfl, ?_⟩⟩)⟩
          · rw [pp_skip tr Ev.wake rfl]; exact halt
          · rw [pp_skip tr Ev.wake rfl]; exact hlast
          · show s1.tasks + 1 = 1
            omega
        · rcases hpol2 with h | h <;> (rw [hpl] at h; exact PollPos.noConfusion h)
    · exact Option.noConfusion hstep
  case mainPump =>
    simp only [step] at hstep
    split at hstep
    · rename_i hg
      obtain ⟨hm1, _, htkpos⟩ := hg
      simp only [Option.some.injEq, Prod.mk.injEq] at hstep
      obtain ⟨hs2, hevs⟩ := hstep
      subst hs2; subst hevs
      rcases hbr with ⟨_, _, _, htk, _⟩ | ⟨_, _, htk, _⟩ | ⟨hm, hlast, hsem, hrest⟩
      · exact absurd htkpos (by omega)
      · exact absurd htkpos (by omega)
      · rcases hrest with ⟨_, htk0⟩ | ⟨hpol2, htk1⟩
        · exact absurd htkpos (by omega)
        · refine ⟨hcl, ?_, Or.inr (Or.inl ⟨hm, ?_, ?_, Or.inl ⟨?_, hpol2⟩⟩)⟩
          · rw [pp_pump]
            refine altB_snoc _ _ halt (fun x hx => ?_)
            rw [hlast] at hx
            obtain rfl := Option.some.inj hx
            decide
          · rw [pp_pump]; exact lastEv_snoc _ _
          · show s1.tasks - 1 = 0
            omega
          · show s1.sem + 1 = 1
            omega
    · exact Option.noConfusion hstep
  case ioArrive =>
    simp only [step] at hstep
    split at hstep
    · simp only [Option.some.injEq, Prod.mk.injEq] at hstep
      obtain ⟨hs2, hevs⟩ := hstep
      subst hs2; subst hevs
      rw [List.append_nil]
      exact ⟨hcl, halt, hbr⟩
    · exact Option.noConfusion hstep
  case dSetClosed =>
    simp only [step] at hstep
    split at hstep
    · simp only [Option.some.injEq, Prod.mk.injEq] at hstep
      obtain ⟨hs2, _⟩ := hstep
      subst hs2
      exact DtorPos.noConfusion (show DtorPos.toPostSem = DtorPos.notStarted from hd2)
    · exact Option.noConfusion hstep
  case dPostSem =>
    simp only [step] at hstep
    split at hstep
    · simp only [Option.some.injEq, Prod.mk.injEq] at hstep
      obtain ⟨hs2, _⟩ := hstep
      subst hs2
      exact DtorPos.noConfusion (show DtorPos.toSendAsync = DtorPos.notStarted from hd2)
    · exact Option.noConfusion hstep
  case dSendAsync =>
    simp only [step] at hstep
    split at hstep
    · simp only [Option.some.injEq, Prod.mk.injEq] at hstep
      obtain ⟨hs2, _⟩ := hstep
      subst hs2
      exact DtorPos.noConfusion (show DtorPos.toJoin = DtorPos.notStarted from hd2)
    · exact Option.noConfusion hstep
  case dJoin =>
    simp only [step] at hstep
    split at hstep
    · simp only [Option.some.injEq, Prod.mk.injEq] at hstep
      obtain ⟨hs2, _⟩ := hstep
      subst hs2
      exact DtorPos.noConfusion (show DtorPos.toDrain = DtorPos.notStarted from hd2)
    · exact Option.noConfusion hstep
  case dDrainPump =>
    simp only [step] at hstep
    split at hstep
    · rename_i hg
      obtain ⟨hdp, _⟩ := hg
      simp only [Option.some.injEq, Prod.mk.injEq] at hstep
      obtain ⟨hs2, _⟩ := hstep
      subst hs2
      have hx : s1.dtorPos = DtorPos.notStarted := hd2
      rw [hdp] at hx
      exact DtorPos.noConfusion hx
    · exact Option.noConfusion hstep
  case dDrainDone =>
    simp only [step] at hstep
    split at hstep
    · simp only [Option.some.injEq, Prod.mk.injEq] at hstep
      obtain ⟨hs2, _⟩ := hstep
      subst hs2
      exact DtorPos.noConfusion (show DtorPos.toDestroySem = DtorPos.notStarted from hd2)
    · exact Option.noConfusion hstep
  case dDestroySem =>
    simp only [step] at hstep
    split at hstep
    · simp only [Option.some.injEq, Prod.mk.injEq] at hstep
      obtain ⟨hs2, _⟩ := hstep
      subst hs2
      exact DtorPos.noConfusion (show DtorPos.toStopTimer = DtorPos.notStarted from hd2)
    · exact Option.noConfusion hstep
  case dStopTimer =>
    simp only [step] at hstep
    split at hstep
    · simp only [Option.some.injEq, Prod.mk.injEq] at hstep
      obtain ⟨hs2, _⟩ := hstep
      subst hs2
      exact DtorPos.noConfusion (show DtorPos.done = DtorPos.notStarted from hd2)
    · exact Option.noConfusion hstep

/-- The invariant holds in every reachable state in which the destructor has
not begun. -/
theorem pre_inv {tr : List Ev} {s : SysState} (h : Steps initState tr s) :
    s.dtorPos = DtorPos.notStarted → PreInv s tr := by
  induction h with
  | refl => intro _; exact preinv_init
  | tail hs hstep ih =>
    intro hd2
    exact preinv_step hstep hd2 (ih (step_dtor_back hstep hd2))

/-! ### The final poll cycle after the Closed flag is set -/

/-- Is the event emitted by the Poll Thread? -/
def isPollThreadEv : Ev → Bool
  | Ev.poll => true
  | Ev.wake => true
  | _ => false

/-- Poll-Thread events still to come before the thread exits, once the Closed
flag is set, as a function of the thread's position. -/
def pollExitEvs : PollPos → List Ev
  | PollPos.loopCheck => []
  | PollPos.semWait => [Ev.poll, Ev.wake]
  | PollPos.polling => [Ev.poll, Ev.wake]
  | PollPos.wakeup => [Ev.wake]
  | PollPos.exited => []

theorem poll_exit_step {s1 : SysState} {a : Act} {s2 : SysState} {evs : List Ev}
    (h : step s1 a = some (s2, evs)) (hc : s1.closed = true) :
    evs.filter isPollThreadEv ++ pollExitEvs s2.pollPos = pollExitEvs s1.pollPos := by
  cases a
  case startPump =>
    simp only [step] at h
    split at h
    · simp only [Option.some.injEq, Prod.mk.injEq] at h
      obtain ⟨hs2, hevs⟩ := h
      subst hs2; subst hevs
      rfl
    · exact Option.noConfusion h
  case pollCheck =>
    simp only [step] at h
    split at h
    · rename_i hpl
      simp only [Option.some.injEq, Prod.mk.injEq] at h
      obtain ⟨hs2, hevs⟩ := h
      subst hs2; subst hevs
      rw [hpl]
      rfl
    · exact Option.noConfusion h
  case pollTake =>
    simp only [step] at h
    split at h
    · rename_i hg
      simp only [Option.some.injEq, Prod.mk.injEq] at h
      obtain ⟨hs2, hevs⟩ := h
      subst hs2; subst hevs
      rw [hg.1]
      rfl
    · exact Option.noConfusion h
  case pollRun =>
    simp only [step] at h
    split at h
    · rename_i hg
      simp only [Option.some.injEq, Prod.mk.injEq] at h
      obtain ⟨hs2, hevs⟩ := h
      subst hs2; subst hevs
      rw [hg.1]
      rfl
    · exact Option.noConfusion h
  case pollWake =>
    simp only [step] at h
    split at h
    · rename_i hpl
      simp only [Option.some.injEq, Prod.mk.injEq] at h
      obtain ⟨hs2, hevs⟩ := h
      subst hs2; subst hevs
      rw [hpl]
      rfl
    · exact Option.noConfusion h
  case mainPump =>
    simp only [step] at h
    split at h
    · simp only [Option.some.injEq, Prod.mk.injEq] at h
      obtain ⟨hs2, hevs⟩ := h
      subst hs2; subst hevs
      rfl
    · exact Option.noConfusion h
  case ioArrive =>
    simp only [step] at h
    split at h
    · simp only [Option.some.injEq, Prod.mk.injEq] at h
      obtain ⟨hs2, hevs⟩ := h
      subst hs2; subst hevs
      rfl
    · exact Option.noConfusion h
  all_goals
    simp only [step] at h
    split at h
    · simp only [Option.some.injEq, Prod.mk.injEq] at h
      obtain ⟨hs2, hevs⟩ := h
      subst hs2; subst hevs
      rfl
    · exact Option.noConfusion h

/-- Once the Closed flag is set, the Poll Thread's remaining events are exactly
those its position still owes. -/
theorem poll_exit_inv {s : SysState} {tr : List Ev} {s2 : SysState}
    (h : Steps s tr s2) (hc : s.closed = true) :
    tr.filter isPollThreadEv ++ pollExitEvs s2.pollPos = pollExitEvs s.pollPos := by
  induction h with
  | refl => simp
  | tail hs hstep ih =>
    rw [List.filter_append, List.append_assoc,
      poll_exit_step hstep (steps_closed_mono hs hc)]
    exact ih

/-! ### The destructor trace invariant -/

/-- Is the event a destructor statement? -/
def isDtorEv : Ev → Bool
  | Ev.pump => false
  | Ev.poll => false
  | Ev.wake => false
  | _ => true

/-- Destructor events already emitted, as a function of its position. -/
def dtorEvsOf : DtorPos → List Ev
  | DtorPos.notStarted => []
  | DtorPos.toPostSem => [Ev.setClosed]
  | DtorPos.toSendAsync => [Ev.setClosed, Ev.postSem]
  | DtorPos.toJoin => [Ev.setClosed, Ev.postSem, Ev.sendAsync]
  | DtorPos.toDrain => [Ev.setClosed, Ev.postSem, Ev.sendAsync, Ev.joinThread]
  | DtorPos.toDestroySem =>
    [Ev.setClosed, Ev.postSem, Ev.sendAsync, Ev.joinThread, Ev.drained]
  | DtorPos.toStopTimer =>
    [Ev.setClosed, Ev.postSem, Ev.sendAsync, Ev.joinThread, Ev.drained, Ev.destroySem]
  | DtorPos.done =>
    [Ev.setClosed, Ev.postSem, Ev.sendAsync, Ev.joinThread, Ev.drained, Ev.destroySem,
     Ev.stopTimer]

/-- Has the Poll Thread been joined at this destructor position? -/
def joinedOf : DtorPos → Bool
  | DtorPos.toDrain | DtorPos.toDestroySem | DtorPos.toStopTimer | DtorPos.done => true
  | _ => false

/-- Has uv_sem_destroy run at this destructor position? -/
def semDestroyedOf : DtorPos → Bool
  | DtorPos.toStopTimer | DtorPos.done => true
  | _ => false

/-- Has uv_timer_stop run at this destructor position? -/
def timerStoppedOf : DtorPos → Bool
  | DtorPos.done => true
  | _ => false

/-- The teardown flags are determined by the destructor position, and a joined
Poll Thread has exited. -/
def dtorFlagsOk (s : SysState) : Prop :=
  s.joined = joinedOf s.dtorPos ∧ s.semDestroyed = semDestroyedOf s.dtorPos ∧
  s.timerStopped = timerStoppedOf s.dtorPos ∧
  (s.joined = true → s.pollPos = PollPos.exited)

theorem dtor_step {s1 : SysState} {a : Act} {s2 : SysState} {evs : List Ev}
    (h : step s1 a = some (s2, evs)) (hf : dtorFlagsOk s1) :
    dtorEvsOf s1.dtorPos ++ evs.filter isDtorEv = dtorEvsOf s2.dtorPos ∧
      dtorFlagsOk s2 := by
  obtain ⟨hf1, hf2, hf3, hf4⟩ := hf
  cases a
  case startPump =>
    simp only [step] at h
    split at h
    · simp only [Option.some.injEq, Prod.mk.injEq] at h
      obtain ⟨hs2, hevs⟩ := h
      subst hs2; subst hevs
      exact ⟨List.append_nil _, hf1, hf2, hf3, hf4⟩
    · exact Option.noConfusion h
  case pollCheck =>
    simp only [step] at h
    split at h
    · rename_i hpl
      split at h
      · simp only [Option.some.injEq, Prod.mk.injEq] at h
        obtain ⟨hs2, hevs⟩ := h
        subst hs2; subst hevs
        exact ⟨List.append_nil _, hf1, hf2, hf3, fun _ => rfl⟩
      · simp only [Option.some.injEq, Prod.mk.injEq] at h
        obtain ⟨hs2, hevs⟩ := h
        subst hs2; subst hevs
        refine ⟨List.append_nil _, hf1, hf2, hf3, fun hj => ?_⟩
        have hx := hf4 hj
        rw [hpl] at hx
        exact PollPos.noConfusion hx
    · exact Option.noConfusion h
  case pollTake =>
    simp only [step] at h
    split at h
    · rename_i hg
      simp only [Option.some.injEq, Prod.mk.injEq] at h
      obtain ⟨hs2, hevs⟩ := h
      subst hs2; subst hevs
      refine ⟨List.append_nil _, hf1, hf2, hf3, fun hj => ?_⟩
      have hx := hf4 hj
      rw [hg.1] at hx
      exact PollPos.noConfusion hx
    · exact Option.noConfusion h
  case pollRun =>
    simp only [step] at h
    split at h
    · rename_i hg
      simp only [Option.some.injEq, Prod.mk.injEq] at h
      obtain ⟨hs2, hevs⟩ := h
      subst hs2; subst hevs
      refine ⟨List.append_nil _, hf1, hf2, hf3, fun hj => ?_⟩
      have hx := hf4 hj
      rw [hg.1] at hx
      exact PollPos.noConfusion hx
    · exact Option.noConfusion h
  case pollWake =>
    simp only [step] at h
    split at h
    · rename_i hpl
      simp only [Option.some.injEq, Prod.mk.injEq] at h
      obtain ⟨hs2, hevs⟩ := h
      subst hs2; subst hevs
      refine ⟨List.append_nil _, hf1, hf2, hf3, fun hj => ?_⟩
      have hx := hf4 hj
      rw [hpl] at hx
      exact PollPos.noConfusion hx
    · exact Option.noConfusion h
  case mainPump =>
    simp only [step] at h
    split at h
    · simp only [Option.some.injEq, Prod.mk.injEq] at h
      obtain ⟨hs2, hevs⟩ := h
      subst hs2; subst hevs
      exact ⟨List.append_nil _, hf1, hf2, hf3, hf4⟩
    · exact Option.noConfusion h
  case ioArrive =>
    simp only [step] at h
    split at h
    · simp only [Option.some.injEq, Prod.mk.injEq] at h
      obtain ⟨hs2, hevs⟩ := h
      subst hs2; subst hevs
      exact ⟨List.append_nil _, hf1, hf2, hf3, hf4⟩
    · exact Option.noConfusion h
  case dSetClosed =>
    simp only [step] at h
    split at h
    · rename_i hg
      simp only [Option.some.injEq, Prod.mk.injEq] at h
      obtain ⟨hs2, hevs⟩ := h
      subst hs2; subst hevs
      rw [hg.2] at hf1 hf2 hf3
      refine ⟨?_, hf1, hf2, hf3, hf4⟩
      rw [hg.2]
      rfl
    · exact Option.noConfusion h
  case dPostSem =>
    simp only [step] at h
    split at h
    · rename_i hdp
      simp only [Option.some.injEq, Prod.mk.injEq] at h
      obtain ⟨hs2, hevs⟩ := h
      subst hs2; subst hevs
      rw [hdp] at hf1 hf2 hf3
      refine ⟨?_, hf1, hf2, hf3, hf4⟩
      rw [hdp]
      rfl
    · exact Option.noConfusion h
  case dSendAsync =>
    simp only [step] at h
    split at h
    · rename_i hdp
      simp only [Option.some.injEq, Prod.mk.injEq] at h
      obtain ⟨hs2, hevs⟩ := h
      subst hs2; subst hevs
      rw [hdp] at hf1 hf2 hf3
      refine ⟨?_, hf1, hf2, hf3, hf4⟩
      rw [hdp]
      rfl
    · exact Option.noConfusion h
  case dJoin =>
    simp only [step] at h
    split at h
    · rename_i hg
      simp only [Option.some.injEq, Prod.mk.injEq] at h
      obtain ⟨hs2, hevs⟩ := h
      subst hs2; subst hevs
      rw [hg.1] at hf2 hf3
      refine ⟨?_, rfl, hf2, hf3, fun _ => hg.2⟩
      rw [hg.1]
      rfl
    · exact Option.noConfusion h
  case dDrainPump =>
    simp only [step] at h
    split at h
    · simp only [Option.some.injEq, Prod.mk.injEq] at h
      obtain ⟨hs2, hevs⟩ := h
      subst hs2; subst hevs
      exact ⟨List.append_nil _, hf1, hf2, hf3, hf4⟩
    · exact Option.noConfusion h
  case dDrainDone =>
    simp only [step] at h
    split at h
    · rename_i hg
      simp only [Option.some.injEq, Prod.mk.injEq] at h
      obtain ⟨hs2, hevs⟩ := h
      subst hs2; subst hevs
      rw [hg.1] at hf1 hf2 hf3
      refine ⟨?_, hf1, hf2, hf3, hf4⟩
      rw [hg.1]
      rfl
    · exact Option.noConfusion h
  case dDestroySem =>
    simp only [step] at h
    split at h
    · rename_i hdp
      simp only [Option.some.injEq, Prod.mk.injEq] at h
      obtain ⟨hs2, hevs⟩ := h
      subst hs2; subst hevs
      rw [hdp] at hf1 hf3
      refine ⟨?_, hf1, rfl, hf3, hf4⟩
      rw [hdp]
      rfl
    · exact Option.noConfusion h
  case dStopTimer =>
    simp only [step] at h
    split at h
    · rename_i hdp
      simp only [Option.some.injEq, Prod.mk.injEq] at h
      obtain ⟨hs2, hevs⟩ := h
      subst hs2; subst hevs
      rw [hdp] at hf1 hf2
      refine ⟨?_, hf1, hf2, rfl, hf4⟩
      rw [hdp]
      rfl
    · exact Option.noConfusion h

/-- Reachable traces carry exactly the destructor events the destructor
position accounts for, and the teardown flags follow the position. -/
theorem dtor_trace_inv {tr : List Ev} {s : SysState} (h : Steps initState tr s) :
    tr.filter isDtorEv = dtorEvsOf s.dtorPos ∧ dtorFlagsOk s := by
  induction h with
  | refl => exact ⟨rfl, rfl, rfl, rfl, fun hj => Bool.noConfusion hj⟩
  | tail hs hstep ih =>
    obtain ⟨htr, hf⟩ := ih
    obtain ⟨h1, h2⟩ := dtor_step hstep hf
    refine ⟨?_, h2⟩
    rw [List.filter_append, htr, h1]

/-! ### Concrete schedules -/

/-- An ordinary cycle: initial pump, one poll cycle, the re-armed pump. -/
def schedNormal : List Act :=
  [Act.startPump, Act.pollCheck, Act.pollTake, Act.ioArrive, Act.pollRun,
   Act.pollWake, Act.pollCheck]

/-- Teardown starting while a wakeup task is still queued and the Poll Thread
is back at its semaphore wait: the destructor's semaphore post releases one
extra poll cycle, and the drain then runs two queued pump tasks. -/
def schedTeardownOverlap : List Act :=
  [Act.startPump, Act.pollCheck, Act.pollTake, Act.ioArrive, Act.pollRun,
   Act.pollWake, Act.pollCheck, Act.dSetClosed, Act.dPostSem, Act.dSendAsync,
   Act.pollTake, Act.pollRun, Act.pollWake, Act.pollCheck, Act.dJoin,
   Act.dDrainPump, Act.dDrainPump, Act.dDrainDone, Act.dDestroySem,
   Act.dStopTimer]

/-- Reach the state in which the Poll Thread is blocked inside PollEvents with
no I/O ready and the dummy async not yet poked. -/
def schedMidPollPrefix : List Act := [Act.startPump, Act.pollCheck, Act.pollTake]

/-- Destroy the core while the Poll Thread is blocked mid-poll, then let the
poll finish and teardown complete. -/
def schedMidPollTeardown : List Act :=
  [Act.startPump, Act.pollCheck, Act.pollTake, Act.dSetClosed, Act.dPostSem,
   Act.dSendAsync, Act.pollRun, Act.pollWake, Act.pollCheck, Act.dJoin,
   Act.dDrainPump, Act.dDrainDone, Act.dDestroySem, Act.dStopTimer]

/-- A complete teardown with the Poll Thread at its loop check. -/
def schedFullTeardown : List Act :=
  [Act.startPump, Act.dSetClosed, Act.dPostSem, Act.dSendAsync, Act.pollCheck,
   Act.dJoin, Act.dDrainDone, Act.dDestroySem, Act.dStopTimer]

/-- A state with the core closed while the Poll Thread is mid-poll and the
destructor has poked the dummy async and is waiting to join. -/
def midPollClosedState : SysState :=
  { mainPos := MainPos.looping, pollPos := PollPos.polling,
    dtorPos := DtorPos.toJoin, sem := 0, tasks := 0, closed := true,
    ioReady := false, asyncPending := true, joined := false,
    semDestroyed := false, timerStopped := false }

/-- The Poll Thread finishing its final cycle. -/
def schedPollFinish : List Act := [Act.pollRun, Act.pollWake, Act.pollCheck]

/-! ### Claim theorems -/

/-- C1: after initialization the runtime argument vector is
[argv0, entry-script-path, argv1, ...]: the entry-script path is inserted at
index 1, argv0 and all trailing arguments are preserved in order, and on the
wide-character platform every original argument passes through UTF16ToUTF8
while on the others the UTF-8 native arguments are kept as-is. -/
theorem runtime_argv_splicing {W : Type} (utf16ToUtf8 : W → String)
    (isMac isBrowser : Bool) (execPath : FsPath)
    (argvW : List W) (w0 : W) (wrest : List W) (hW : argvW = w0 :: wrest)
    (argv : List String) (a0 : String) (rest : List String)
    (hP : argv = a0 :: rest) :
    runtimeArgvWin utf16ToUtf8 argvW
        (pathToString (entryScriptPath isMac isBrowser execPath)) =
      some (utf16ToUtf8 w0 ::
        pathToString (entryScriptPath isMac isBrowser execPath) ::
        wrest.map utf16ToUtf8) ∧
    runtimeArgvPosix argv
        (pathToString (entryScriptPath isMac isBrowser execPath)) =
      some (a0 :: pathToString (entryScriptPath isMac isBrowser execPath) :: rest) := by
  subst hW; subst hP
  exact ⟨rfl, rfl⟩

/-- Witness for C1 at the spec's scenario S1: argv /app/bin/app --flag,
privileged role, non-mac platform. -/
theorem runtime_argv_splicing_witness :
    runtimeArgvWin (fun s => s) ["/app/bin/app", "--flag"]
        (pathToString (entryScriptPath false true ["", "app", "bin", "app"])) =
      some ["/app/bin/app", "/app/bin/resources/browser/atom/atom.js", "--flag"] ∧
    runtimeArgvPosix ["/app/bin/app", "--flag"]
        (pathToString (entryScriptPath false true ["", "app", "bin", "app"])) =
      some ["/app/bin/app", "/app/bin/resources/browser/atom/atom.js", "--flag"] :=
  runtime_argv_splicing (fun s => s) false true ["", "app", "bin", "app"]
    ["/app/bin/app", "--flag"] "/app/bin/app" ["--flag"] rfl
    ["/app/bin/app", "--flag"] "/app/bin/app" ["--flag"] rfl

/-- C2 counterexample: a reachable trace in which teardown overlaps a poll
cycle; its pump/poll subtrace is pump, poll, poll, pump, pump, so two poll
calls are adjacent and two pump calls are adjacent, refuting strict alternation
over every execution trace after start. -/
theorem pump_poll_alternation_counterexample :
    Steps initState (run initState schedTeardownOverlap).2
      (run initState schedTeardownOverlap).1 ∧
    pp (run initState schedTeardownOverlap).2 =
      [Ev.pump, Ev.poll, Ev.poll, Ev.pump, Ev.pump] ∧
    altB (pp (run initState schedTeardownOverlap).2) = false :=
  ⟨steps_run schedTeardownOverlap initState, by decide, by decide⟩

/-- C2 (amended): over every execution trace from start on which teardown has
not yet begun, pump_once and poll_events strictly alternate: between any two
pump events there is exactly one poll event and conversely. -/
theorem pump_poll_alternation_before_teardown {tr : List Ev} {s : SysState}
    (h : Steps initState tr s) (hd : s.dtorPos = DtorPos.notStarted) :
    altB (pp tr) = true :=
  (pre_inv h hd).2.1

/-- Witness for the amended C2 theorem at a concrete full-cycle schedule. -/
theorem pump_poll_alternation_before_teardown_witness :
    altB (pp (run initState schedNormal).2) = true :=
  pump_poll_alternation_before_teardown (steps_run schedNormal initState)
    (by decide)

/-- C3 counterexample: the core is destroyed while the Poll Thread is blocked
in its poll (no I/O ready, dummy async not yet poked); in the completed trace a
wakeup_main call still occurs after the Closed flag is set, so the thread does
not exit without invoking wakeup_main. -/
theorem teardown_midpoll_counterexample :
    (run initState schedMidPollPrefix).1.pollPos = PollPos.polling ∧
    (run initState schedMidPollPrefix).1.ioReady = false ∧
    (run initState schedMidPollPrefix).1.asyncPending = false ∧
    Steps initState (run initState schedMidPollTeardown).2
      (run initState schedMidPollTeardown).1 ∧
    (run initState schedMidPollTeardown).1.pollPos = PollPos.exited ∧
    ((run initState schedMidPollTeardown).2.dropWhile
      (fun e => e != Ev.setClosed)).count Ev.wake = 1 :=
  ⟨by decide, by decide, by decide, steps_run schedMidPollTeardown initState,
    by decide, by decide⟩

/-- C3 (amended): if the Closed flag is set while the Poll Thread is blocked in
its poll step, then on any continuation on which the thread reaches its exit,
its remaining events are exactly one poll_events return followed by one
wakeup_main call: the final cycle posts one pump task (drained by the
destructor) before the thread observes the Closed flag and exits. -/
theorem teardown_midpoll_final_cycle {s : SysState} {tr : List Ev}
    {s2 : SysState} (h : Steps s tr s2) (hc : s.closed = true)
    (hp : s.pollPos = PollPos.polling) (he : s2.pollPos = PollPos.exited) :
    tr.filter isPollThreadEv = [Ev.poll, Ev.wake] := by
  have hinv := poll_exit_inv h hc
  rw [hp, he] at hinv
  simpa [pollExitEvs] using hinv

/-- Witness for the amended C3 theorem from the concrete mid-poll state. -/
theorem teardown_midpoll_final_cycle_witness :
    (run midPollClosedState schedPollFinish).2.filter isPollThreadEv =
      [Ev.poll, Ev.wake] :=
  teardown_midpoll_final_cycle (steps_run schedPollFinish midPollClosedState)
    (by decide) (by decide) (by decide)

/-- C4 counterexample: in the renderer role, after initialization the
standalone_mode switch is false, refuting the claim that standalone_mode is
true for every role. -/
theorem standalone_mode_renderer_counterexample :
    ¬((globalSwitchesAfterInit false).g_standalone_mode = true ∧
      (globalSwitchesAfterInit false).g_upstream_node_mode = false) := by
  intro h
  exact Bool.noConfusion h.1

/-- C4 (amended): after initialization standalone_mode equals the role flag —
true exactly for the privileged role — and upstream_mode is false for every
role. -/
theorem standalone_mode_matches_role (is_browser : Bool) :
    (globalSwitchesAfterInit is_browser).g_standalone_mode = is_browser ∧
    (globalSwitchesAfterInit is_browser).g_upstream_node_mode = false :=
  ⟨rfl, rfl⟩

/-- C5: the resources directory follows the role- and platform-dependent rule
(macOS privileged exe/../../Resources, macOS renderer
exe/../../../../../Resources, otherwise exe-dir/resources), the entry script is
resources/browser/atom/atom.js for the privileged role and atom-renderer.js
otherwise, and for the helper executable of a macOS renderer the entry script
resolves to /Apps/X.app/Contents/Resources/browser/atom/atom-renderer.js. -/
theorem resources_and_script_rule (execPath : FsPath) :
    resourcesPath true true execPath = dirName (dirName execPath) ++ ["Resources"] ∧
    resourcesPath true false execPath =
      dirName (dirName (dirName (dirName (dirName execPath)))) ++ ["Resources"] ∧
    (∀ isBrowser, resourcesPath false isBrowser execPath =
      dirName execPath ++ ["resources"]) ∧
    (∀ isMac isBrowser, entryScriptPath isMac isBrowser execPath =
      resourcesPath isMac isBrowser execPath ++
        ["browser", "atom", if isBrowser then "atom.js" else "atom-renderer.js"]) ∧
    pathToString (entryScriptPath true false
      ["", "Apps", "X.app", "Contents", "Frameworks", "H.app", "Contents",
       "MacOS", "helper"]) =
      "/Apps/X.app/Contents/Resources/browser/atom/atom-renderer.js" := by
  refine ⟨rfl, rfl, fun b => rfl, fun m b => ?_, rfl⟩
  show appendComp
      (appendComp (appendComp (resourcesPath m b execPath) "browser") "atom")
      (if b then "atom.js" else "atom-renderer.js") = _
  simp [appendComp, List.append_assoc]

/-- C6: one pump_once invocation schedules the host loop to quit when idle if
and only if the single non-blocking iteration returned 0 or the loop's stop
flag is set, and in that case it issues exactly one QuitWhenIdle call. -/
theorem quit_when_idle_exactly_once (r stopFlag : Int) :
    ((uvRunOnceCalls r stopFlag).count PumpEffect.quitWhenIdle = 1 ↔
      (r = 0 ∨ stopFlag ≠ 0)) ∧
    ((uvRunOnceCalls r stopFlag).count PumpEffect.quitWhenIdle = 0 ↔
      ¬(r = 0 ∨ stopFlag ≠ 0)) := by
  by_cases h : r = 0 ∨ stopFlag ≠ 0 <;>
    simp [uvRunOnceCalls, h, List.count_cons]

/-- C7: binding a frame whose main-world script context is empty is a silent
no-op: no error is raised and no effect (security token write, bootstrap run or
call) is performed, whatever the state of the shared Environment. -/
theorem bindTo_empty_context_noop (global_env : Option Environment)
    (frame : WebFrame) (h : frame.mainWorldContext = none) :
    bindTo global_env frame = Except.ok [] := by
  unfold bindTo
  rw [h]

/-- Witness for C7 at a concrete frame without a context. -/
theorem bindTo_empty_context_noop_witness :
    bindTo none { mainWorldContext := none, documentUrl := "file:///index.html" } =
      Except.ok [] :=
  bindTo_empty_context_noop none
    { mainWorldContext := none, documentUrl := "file:///index.html" } rfl

/-- C8: the destructor performs exactly set-Closed-flag, post-semaphore,
send-dummy-async, join-Poll-Thread, drain-host-loop, destroy-semaphore,
stop-idle-timer, in this order; after it completes, the Poll Thread has exited
and is joined, the semaphore is destroyed and the idle timer is stopped. -/
theorem teardown_steps_in_order {tr : List Ev} {s : SysState}
    (h : Steps initState tr s) (hd : s.dtorPos = DtorPos.done) :
    tr.filter isDtorEv =
      [Ev.setClosed, Ev.postSem, Ev.sendAsync, Ev.joinThread, Ev.drained,
       Ev.destroySem, Ev.stopTimer] ∧
    s.joined = true ∧ s.semDestroyed = true ∧ s.timerStopped = true ∧
    s.pollPos = PollPos.exited := by
  obtain ⟨htr, hf1, hf2, hf3, hf4⟩ := dtor_trace_inv h
  rw [hd] at htr hf1 hf2 hf3
  exact ⟨htr, hf1, hf2, hf3, hf4 hf1⟩

/-- Witness for C8 on a complete concrete teardown schedule. -/
theorem teardown_steps_in_order_witness :
    (run initState schedFullTeardown).2.filter isDtorEv =
      [Ev.setClosed, Ev.postSem, Ev.sendAsync, Ev.joinThread, Ev.drained,
       Ev.destroySem, Ev.stopTimer] ∧
    (run initState schedFullTeardown).1.joined = true ∧
    (run initState schedFullTeardown).1.semDestroyed = true ∧
    (run initState schedFullTeardown).1.timerStopped = true ∧
    (run initState schedFullTeardown).1.pollPos = PollPos.exited :=
  teardown_steps_in_order (steps_run schedFullTeardown initState) (by decide)

/-- C9: binding a frame with a non-empty context invokes the bootstrap function
with exactly two arguments, the shared Environment's process object and the
URL-decoded path component of the document URL (spaces and URL-special
characters decoded); for document URL file:///tmp/hello%20world.html that path
is /tmp/hello world.html. -/
theorem bindTo_bootstrap_args (env : Environment) (frame : WebFrame) (c : Nat)
    (h : frame.mainWorldContext = some c) :
    bindTo (some env) frame =
      Except.ok
        [BindEffect.setSecurityToken env.securityToken,
         BindEffect.runBootstrapScript,
         BindEffect.callBootstrap env.processObject
           (unescapeURLComponent (urlPath frame.documentUrl))] ∧
    unescapeURLComponent (urlPath "file:///tmp/hello%20world.html") =
      "/tmp/hello world.html" := by
  constructor
  · unfold bindTo
    rw [h]
  · rfl

/-- Witness for C9 at the spec's scenario S5. -/
theorem bindTo_bootstrap_args_witness :
    bindTo (some { securityToken := 5, processObject := 9 })
        { mainWorldContext := some 3,
          documentUrl := "file:///tmp/hello%20world.html" } =
      Except.ok
        [BindEffect.setSecurityToken 5, BindEffect.runBootstrapScript,
         BindEffect.callBootstrap 9
           (unescapeURLComponent (urlPath "file:///tmp/hello%20world.html"))] ∧
    unescapeURLComponent (urlPath "file:///tmp/hello%20world.html") =
      "/tmp/hello world.html" :=
  bindTo_bootstrap_args { securityToken := 5, processObject := 9 }
    { mainWorldContext := some 3, documentUrl := "file:///tmp/hello%20world.html" }
    3 rfl

/-- C10: BindTo guards only against the empty context; with a non-empty context
the shared Environment is dereferenced unconditionally, so once initialization
has completed (global_env non-null) every access is safe and no error path is
reachable, while binding a non-empty context before initialization reaches the
null dereference. -/
theorem bindTo_env_guard (global_env : Option Environment) (frame : WebFrame)
    (c : Nat) (hc : frame.mainWorldContext = some c) :
    (∀ env, global_env = some env →
      ∃ effs, bindTo global_env frame = Except.ok effs) ∧
    (global_env = none →
      bindTo global_env frame = Except.error BindError.nullEnvironmentDeref) := by
  constructor
  · intro env henv
    subst henv
    refine ⟨[BindEffect.setSecurityToken env.securityToken,
      BindEffect.runBootstrapScript,
      BindEffect.callBootstrap env.processObject
        (unescapeURLComponent (urlPath frame.documentUrl))], ?_⟩
    unfold bindTo
    rw [hc]
  · intro henv
    subst henv
    unfold bindTo
    rw [hc]

/-- Witness for C10 at a concrete frame with a context, with and without the
shared Environment. -/
theorem bindTo_env_guard_witness :
    (∃ effs, bindTo (some { securityToken := 1, processObject := 2 })
        { mainWorldContext := some 7, documentUrl := "file:///a.html" } =
      Except.ok effs) ∧
    bindTo none { mainWorldContext := some 7, documentUrl := "file:///a.html" } =
      Except.error BindError.nullEnvironmentDeref :=
  ⟨(bindTo_env_guard (some { securityToken := 1, processObject := 2 })
      { mainWorldContext := some 7, documentUrl := "file:///a.html" } 7 rfl).1
      { securityToken := 1, processObject := 2 } rfl,
   (bindTo_env_guard none
      { mainWorldContext := some 7, documentUrl := "file:///a.html" } 7 rfl).2 rfl⟩

end Atom
